import Mathlib

/-!
# Serverify client

Shallow embedding of `serverify.go`: the request mediator (`Serverify`, `doRequest`,
`CreateSession`) and the session handle (`Session`, `Logs`, `Delete`, `BaseURL`).

The program talks to the outside through three libraries.  Their code is not part of the
repository, so the embedding states what it takes from each of them:

* resty (`Client`, `Request`, `Response`): `Request.Execute` performs one call, decodes the
  response body into the result sink when the status is 200..299 and into the error sink when
  the status is above 399, both only for a response labelled JSON and never for status 204;
  it reports a failed decode of the result sink as its error and drops a failed decode of the
  error sink.  `Response.IsError` is `StatusCode() > 399`.
* encoding/json: `Unmarshal` into the three struct shapes the program declares.
* net/url: `JoinPath`, modelled on hierarchical base URLs (`splitBase`); elsewhere it is the
  uninterpreted `Lib.joinPathRest`.

The remote side is a `Network`: a response function and the list of calls made so far.  A
call is one `Execute`: what the transport does below it (connections, redirects) is its own.
Operations that reach the network take the `Network` and return it with the call added.
-/

set_option linter.dupNamespace false

namespace Serverify

/-! ## Values -/

/-- JSON document: what a syntactically valid response body denotes.  Numbers keep their
literal text; no shape the program decodes into has a numeric field. -/
inductive JSON where
  | null
  | bool (b : Bool)
  | num (lit : String)
  | str (s : String)
  | arr (items : List JSON)
  | obj (members : List (String × JSON))

/-- Go `map[string]string`, kept as the list of its entries in order of first insertion. -/
abbrev StringMap := List (String × String)

/-- Map assignment `m[k] = v`: overwrites the entry of `k` when there is one. -/
def StringMap.set : StringMap → String → String → StringMap
  | [], k, v => [(k, v)]
  | (k', v') :: rest, k, v =>
    if k' = k then (k, v) :: rest else (k', v') :: StringMap.set rest k v

/-- Go `time.Time`, reduced to the instant it denotes: nanoseconds since the Unix epoch. -/
structure Time where
  unixNano : Int
  deriving DecidableEq, Repr

/-- Zero value of `time.Time`: January 1, year 1, 00:00:00 UTC. -/
def Time.zero : Time := ⟨-62135596800000000000⟩

/-- Library functions used by the program whose behaviour the embedding leaves open. -/
structure Lib where
  /-- Case folding of member names by encoding/json (`foldName`). -/
  foldName : String → String
  /-- RFC 3339 parsing of `time.Time.UnmarshalJSON`: the instant, or nothing when the text is
  not a valid RFC 3339 timestamp. -/
  parseTime : String → Option Time
  /-- Result of `url.JoinPath` on arguments outside the fragment that `JoinPath` models. -/
  joinPathRest : String → List String → String × Option String

/-! ## Errors -/

/-- Anonymous struct `struct { Message string }` nested in `Error` and `errorResponse`. -/
structure ErrorBody where
  Message : String := ""
  deriving DecidableEq, Repr

/-- Operation error `Error`. -/
structure Error where
  StatusCode : Int
  ServerifyError : ErrorBody
  deriving DecidableEq, Repr

/-- Method `Error.Error`. -/
def Error.Error (e : Error) : String :=
  e.ServerifyError.Message

/-- Error value returned by `Request.Execute`: opaque to the program. -/
structure TransportError where
  reason : String
  deriving DecidableEq, Repr

/-- Go `error` value a caller of this package can receive: an `Error` built by `doRequest`,
or the error of the transport passed through. -/
inductive GoError where
  | api (e : Error)
  | transport (e : TransportError)
  deriving DecidableEq, Repr

/-! ## encoding/json: Unmarshal into the shapes of the program

A decoder takes the document and the current value of the target and gives the value left
behind together with the first error recorded.  As in the library a mismatch on one member
is recorded and decoding goes on; `Unmarshal` fails when an error was recorded.  An error
raised by `Time.UnmarshalJSON` stops the library at once: the embedding records it like the
others, which changes only the value left in a sink whose decode failed, and no caller reads
that value. -/

/-- First recorded error wins. -/
def firstErr : Option String → Option String → Option String
  | some e, _ => some e
  | none, e => e

/-- Field selection of encoding/json for a member name: the field with exactly this name,
else the first field whose folded name equals the folded member name.  The answer is the
position of the field in the declaration. -/
def Lib.fieldIndex (lib : Lib) (fields : List String) (key : String) : Option Nat :=
  match fields.indexOf? key with
  | some i => some i
  | none => (fields.map lib.foldName).indexOf? (lib.foldName key)

/-- Unmarshal into a `string`: a JSON string is stored, `null` leaves the value, anything
else is a type error. -/
def unmarshalString (v : JSON) (cur : String) : String × Option String :=
  match v with
  | .str s => (s, none)
  | .null => (cur, none)
  | _ => (cur, some "json: cannot unmarshal value into Go value of type string")

/-- Members of an object stored one by one into a struct through `setField`. -/
def decodeMembers {α : Type} (setField : String → JSON → α → α × Option String) :
    List (String × JSON) → α → α × Option String
  | [], cur => (cur, none)
  | (k, v) :: rest, cur =>
    let r := setField k v cur
    let r' := decodeMembers setField rest r.1
    (r'.1, firstErr r.2 r'.2)

/-- Unmarshal into a struct: an object is stored member by member, `null` leaves the value,
anything else is a type error. -/
def decodeStruct {α : Type} (setField : String → JSON → α → α × Option String)
    (v : JSON) (cur : α) : α × Option String :=
  match v with
  | .obj members => decodeMembers setField members cur
  | .null => (cur, none)
  | _ => (cur, some "json: cannot unmarshal value into Go value of struct type")

/-- Entries of an object stored into a `map[string]string`: every value is decoded into a
fresh empty string and then assigned under its key. -/
def decodeEntries : List (String × JSON) → StringMap → StringMap × Option String
  | [], m => (m, none)
  | (k, v) :: rest, m =>
    let r := unmarshalString v ""
    let r' := decodeEntries rest (m.set k r.1)
    (r'.1, firstErr r.2 r'.2)

/-- Unmarshal into a `map[string]string`: an object adds its entries to the map, `null`
resets the map, anything else is a type error. -/
def unmarshalStringMap (v : JSON) (cur : StringMap) : StringMap × Option String :=
  match v with
  | .obj members => decodeEntries members cur
  | .null => ([], none)
  | _ => (cur, some "json: cannot unmarshal value into Go value of type map[string]string")

/-- Unmarshal into a `time.Time` (`Time.UnmarshalJSON`): `null` leaves the value, a string is
parsed as RFC 3339, anything else is refused. -/
def unmarshalTime (lib : Lib) (v : JSON) (cur : Time) : Time × Option String :=
  match v with
  | .null => (cur, none)
  | .str s =>
    match lib.parseTime s with
    | some t => (t, none)
    | none => (Time.zero, some "parsing time: not an RFC 3339 timestamp")
  | _ => (cur, some "Time.UnmarshalJSON: input is not a JSON string")

/-- Items of an array decoded into a slice: item `i` is decoded into element `i` of the
current slice when there is one and into a zero element otherwise. -/
def decodeItems {α : Type} (dec : JSON → α → α × Option String) (zero : α) :
    List JSON → List α → List α × Option String
  | [], _ => ([], none)
  | v :: rest, cur =>
    let r := dec v (cur.head?.getD zero)
    let r' := decodeItems dec zero rest cur.tail
    (r.1 :: r'.1, firstErr r.2 r'.2)

/-- Unmarshal into a slice: an array replaces the content, `null` empties the slice, anything
else is a type error. -/
def decodeSlice {α : Type} (dec : JSON → α → α × Option String) (zero : α)
    (v : JSON) (cur : List α) : List α × Option String :=
  match v with
  | .arr items => decodeItems dec zero items cur
  | .null => ([], none)
  | _ => (cur, some "json: cannot unmarshal value into Go value of slice type")

/-- Struct `errorResponse`; the JSON names are `serverify_error` and, inside, `message`. -/
structure errorResponse where
  ServerifyError : ErrorBody := {}
  deriving DecidableEq, Repr

/-- Store one member into the inner struct of `errorResponse`. -/
def ErrorBody.setField (lib : Lib) (k : String) (v : JSON) (cur : ErrorBody) :
    ErrorBody × Option String :=
  match lib.fieldIndex ["message"] k with
  | some 0 =>
    let r := unmarshalString v cur.Message
    ({ cur with Message := r.1 }, r.2)
  | _ => (cur, none)

/-- Store one member into `errorResponse`. -/
def errorResponse.setField (lib : Lib) (k : String) (v : JSON) (cur : errorResponse) :
    errorResponse × Option String :=
  match lib.fieldIndex ["serverify_error"] k with
  | some 0 =>
    let r := decodeStruct (ErrorBody.setField lib) v cur.ServerifyError
    ({ cur with ServerifyError := r.1 }, r.2)
  | _ => (cur, none)

/-- Unmarshal into `errorResponse`. -/
def errorResponse.unmarshal (lib : Lib) (v : JSON) (cur : errorResponse) :
    errorResponse × Option String :=
  decodeStruct (errorResponse.setField lib) v cur

/-- Anonymous struct `res` of `CreateSession`; the JSON name is `session`. -/
structure SessionResult where
  Session : String := ""
  deriving DecidableEq, Repr

/-- Store one member into the result struct of `CreateSession`. -/
def SessionResult.setField (lib : Lib) (k : String) (v : JSON) (cur : SessionResult) :
    SessionResult × Option String :=
  match lib.fieldIndex ["session"] k with
  | some 0 =>
    let r := unmarshalString v cur.Session
    ({ cur with Session := r.1 }, r.2)
  | _ => (cur, none)

/-- Unmarshal into the result struct of `CreateSession`. -/
def SessionResult.unmarshal (lib : Lib) (v : JSON) (cur : SessionResult) :
    SessionResult × Option String :=
  decodeStruct (SessionResult.setField lib) v cur

/-- Struct `Log`: one recorded request. -/
structure Log where
  Method : String
  Headers : StringMap
  Path : String
  Query : StringMap
  Body : String
  RequestedAt : Time
  deriving DecidableEq, Repr

/-- Zero value of `Log`. -/
def Log.zero : Log := ⟨"", [], "", [], "", Time.zero⟩

/-- JSON names of the fields of `Log`, in declaration order. -/
def Log.fieldNames : List String :=
  ["method", "headers", "path", "query", "body", "requestedAt"]

/-- Store one member into a `Log`. -/
def Log.setField (lib : Lib) (k : String) (v : JSON) (cur : Log) : Log × Option String :=
  match lib.fieldIndex Log.fieldNames k with
  | some 0 =>
    let r := unmarshalString v cur.Method
    ({ cur with Method := r.1 }, r.2)
  | some 1 =>
    let r := unmarshalStringMap v cur.Headers
    ({ cur with Headers := r.1 }, r.2)
  | some 2 =>
    let r := unmarshalString v cur.Path
    ({ cur with Path := r.1 }, r.2)
  | some 3 =>
    let r := unmarshalStringMap v cur.Query
    ({ cur with Query := r.1 }, r.2)
  | some 4 =>
    let r := unmarshalString v cur.Body
    ({ cur with Body := r.1 }, r.2)
  | some 5 =>
    let r := unmarshalTime lib v cur.RequestedAt
    ({ cur with RequestedAt := r.1 }, r.2)
  | _ => (cur, none)

/-- Unmarshal into a `Log`. -/
def Log.unmarshal (lib : Lib) (v : JSON) (cur : Log) : Log × Option String :=
  decodeStruct (Log.setField lib) v cur

/-- Struct `Logs`; the JSON name is `histories`. -/
structure Logs where
  Histories : List Log := []
  deriving DecidableEq, Repr

/-- Store one member into a `Logs`. -/
def Logs.setField (lib : Lib) (k : String) (v : JSON) (cur : Logs) : Logs × Option String :=
  match lib.fieldIndex ["histories"] k with
  | some 0 =>
    let r := decodeSlice (Log.unmarshal lib) Log.zero v cur.Histories
    ({ cur with Histories := r.1 }, r.2)
  | _ => (cur, none)

/-- Unmarshal into a `Logs`. -/
def Logs.unmarshal (lib : Lib) (v : JSON) (cur : Logs) : Logs × Option String :=
  decodeStruct (Logs.setField lib) v cur

/-! ## The remote side -/

/-- One call handed to the transport: the base URL of the client, the method and path given
to `Execute`, and the request body (a `map[string]string`, sent as a JSON object). -/
structure Call where
  baseURL : String
  method : String
  path : String
  body : Option StringMap
  deriving DecidableEq, Repr

/-- HTTP response as the transport sees it: the status code, the content type and the
body.  `json` is true for a content type that resty decodes as JSON and false for one that it
does not decode; a response labelled XML, which resty would hand to encoding/xml, is outside
the model.  `body` is the document that the body text denotes, and nothing when the text is
not valid JSON. -/
structure HTTPResponse where
  status : Int
  json : Bool
  body : Option JSON

/-- What comes back for a call: a failure of the transport or a response. -/
inductive Outcome where
  | failure (reason : String)
  | response (r : HTTPResponse)

/-- Remote side: how a call is answered given the calls made before it, and the calls made
so far, oldest first. -/
structure Network where
  respond : List Call → Call → Outcome
  calls : List Call

/-! ## resty -/

/-- Resty `Client`: the base URL. -/
structure Client where
  BaseURL : String
  deriving DecidableEq, Repr

/-- Go `strings.TrimRight(s, "/")` on the characters of `s`. -/
def trimRightSlash (cs : List Char) : List Char :=
  (cs.reverse.dropWhile (· = '/')).reverse

/-- Resty `Client.SetBaseURL`: stores the URL without trailing slashes. -/
def Client.SetBaseURL (_c : Client) (url : String) : Client :=
  ⟨⟨trimRightSlash url.data⟩⟩

/-- Resty `Response`: the status code, 0 when no response was received. -/
structure Response where
  status : Int
  deriving DecidableEq, Repr

/-- Resty `Response.StatusCode`. -/
def Response.StatusCode (r : Response) : Int :=
  r.status

/-- Resty `Response.IsSuccess`: `StatusCode() > 199 && StatusCode() < 300`. -/
def Response.IsSuccess (r : Response) : Bool :=
  decide (r.StatusCode > 199) && decide (r.StatusCode < 300)

/-- Resty `Response.IsError`: `StatusCode() > 399`. -/
def Response.IsError (r : Response) : Bool :=
  decide (r.StatusCode > 399)

/-- Result sink `SetResult(&v)`: the current value of `v` and the decoder of its type. -/
structure Sink (α : Type) where
  value : α
  unmarshal : JSON → α → α × Option String

/-- Resty `Request`: the client, the value behind the error sink, the body and the result
sink. -/
structure Request (α : Type) where
  client : Client
  Error : Option errorResponse
  Body : Option StringMap
  Result : Option (Sink α)

/-- Resty `Client.R`: a fresh request. -/
def Client.R {α : Type} (c : Client) : Request α :=
  ⟨c, none, none, none⟩

/-- Resty `Request.SetError`. -/
def Request.SetError {α : Type} (r : Request α) (e : errorResponse) : Request α :=
  { r with Error := some e }

/-- Resty `Request.SetBody`. -/
def Request.SetBody {α : Type} (r : Request α) (b : StringMap) : Request α :=
  { r with Body := some b }

/-- Resty `Request.SetResult`. -/
def Request.SetResult {α : Type} (r : Request α) (s : Sink α) : Request α :=
  { r with Result := some s }

/-- Values behind the two sinks after the response was parsed, and the parse error. -/
structure Parsed (α : Type) where
  Error : Option errorResponse
  Result : Option α
  err : Option String

/-- Resty `json.Unmarshal` of a response body into a value: a body that is not valid JSON
is a syntax error and leaves the value. -/
def unmarshalBody {α : Type} (dec : JSON → α → α × Option String) (body : Option JSON)
    (cur : α) : α × Option String :=
  match body with
  | some v => dec v cur
  | none => (cur, some "invalid character in JSON text")

/-- Resty `parseResponseBody`: nothing is decoded for status 204 or a content type other
than JSON; a success status decodes into the result sink and reports the decode error; an
error status decodes into the error sink and drops the decode error. -/
def parseResponseBody {α : Type} (lib : Lib) (req : Request α) (r : HTTPResponse) :
    Parsed α :=
  let res : Response := ⟨r.status⟩
  let untouched : Parsed α := ⟨req.Error, req.Result.map (·.value), none⟩
  if res.StatusCode = 204 then untouched
  else if r.json then
    if res.IsSuccess then
      match req.Result with
      | some sink =>
        let d := unmarshalBody sink.unmarshal r.body sink.value
        ⟨req.Error, some d.1, d.2⟩
      | none => untouched
    else if res.IsError then
      match req.Error with
      | some e =>
        let d := unmarshalBody (errorResponse.unmarshal lib) r.body e
        ⟨some d.1, req.Result.map (·.value), none⟩
      | none => untouched
    else untouched
  else untouched

/-- Outcome of `Request.Execute`: the response, the error, the values behind the two sinks
and the remote side after the call. -/
structure Executed (α : Type) where
  res : Response
  err : Option TransportError
  Error : Option errorResponse
  Result : Option α
  net : Network

/-- Resty `Request.Execute`: one call is made; a failure of the transport is returned as the
error, a response is parsed into the sinks. -/
def Request.Execute {α : Type} (lib : Lib) (req : Request α) (method url : String)
    (net : Network) : Executed α :=
  let call : Call := ⟨req.client.BaseURL, method, url, req.Body⟩
  let net' : Network := { net with calls := net.calls ++ [call] }
  match net.respond net.calls call with
  | .failure reason => ⟨⟨0⟩, some ⟨reason⟩, req.Error, req.Result.map (·.value), net'⟩
  | .response r =>
    let p := parseResponseBody lib req r
    ⟨⟨r.status⟩, p.err.map TransportError.mk, p.Error, p.Result, net'⟩

/-! ## The program -/

/-- Struct `Serverify`. -/
structure Serverify where
  client : Client
  deriving DecidableEq, Repr

/-- Function `New`. -/
def New (baseURL : String) : Serverify :=
  ⟨(Client.mk "").SetBaseURL baseURL⟩

/-- Outcome of `doRequest`: the returned error, the value behind the result sink and the
remote side after the call. -/
structure Done (α : Type) where
  err : Option GoError
  result : Option α
  net : Network

/-- Method `Serverify.doRequest`.  `errRes` is handed to the request by pointer, so after
`Execute` it is read back from the error sink. -/
def Serverify.doRequest {α : Type} (lib : Lib) (s : Serverify) (method path : String)
    (body : Option StringMap) (result : Option (Sink α)) (net : Network) : Done α :=
  let errRes : errorResponse := {}
  let req : Request α := s.client.R.SetError errRes
  let req := match body with
    | some b => req.SetBody b
    | none => req
  let req := match result with
    | some r => req.SetResult r
    | none => req
  let out := req.Execute lib method path net
  let errRes := out.Error.getD errRes
  match out.err with
  | some err => ⟨some (.transport err), out.Result, out.net⟩
  | none =>
    if out.res.IsError then
      ⟨some (.api { StatusCode := out.res.StatusCode,
                    ServerifyError := { Message := errRes.ServerifyError.Message } }),
        out.Result, out.net⟩
    else ⟨none, out.Result, out.net⟩

/-- The request that `doRequest` hands to `Execute`: the error sink is a zero
`errorResponse`, and the body and the result sink are set when they are given. -/
def Serverify.request {α : Type} (s : Serverify) (body : Option StringMap)
    (result : Option (Sink α)) : Request α :=
  let req : Request α := s.client.R.SetError {}
  let req := match body with
    | some b => req.SetBody b
    | none => req
  match result with
  | some r => req.SetResult r
  | none => req

/-- Struct `Session`. -/
structure Session where
  name : String
  serverify : Serverify
  deriving DecidableEq, Repr

/-- Method `Session.Name`. -/
def Session.Name (s : Session) : String :=
  s.name

/-- Method `Serverify.CreateSession`: the session, the error and the remote side after. -/
def Serverify.CreateSession (lib : Lib) (s : Serverify) (name : String) (net : Network) :
    Option Session × Option GoError × Network :=
  let res : SessionResult := {}
  let out := s.doRequest lib "POST" "/session" (some [("session", name)])
    (some ⟨res, SessionResult.unmarshal lib⟩) net
  let res := out.result.getD res
  match out.err with
  | some err => (none, some err, out.net)
  | none => (some { name := res.Session, serverify := s }, none, out.net)

/-- Method `Session.Logs`: the logs, the error and the remote side after. -/
def Session.Logs (lib : Lib) (s : Session) (net : Network) :
    Option Serverify.Logs × Option GoError × Network :=
  let logs : Serverify.Logs := {}
  let out := s.serverify.doRequest lib "GET" ("/session/" ++ s.Name) none
    (some ⟨logs, Logs.unmarshal lib⟩) net
  let logs := out.result.getD logs
  match out.err with
  | some err => (none, some err, out.net)
  | none => (some logs, none, out.net)

/-- Method `Session.Delete`: the error and the remote side after. -/
def Session.Delete (lib : Lib) (s : Session) (net : Network) : Option GoError × Network :=
  let out := s.serverify.doRequest lib "DELETE" ("/session/" ++ s.Name) none
    (none : Option (Sink Unit)) net
  (out.err, out.net)

/-! ## net/url: JoinPath -/

/-- Unreserved characters of RFC 3986: letters, digits, `-`, `.`, `_`, `~`. -/
def isUnreserved (c : Char) : Bool :=
  c.isAlphanum || c = '-' || c = '.' || c = '_' || c = '~'

/-- Characters of the paths that the embedding of `JoinPath` covers: unreserved or `/`. -/
def isPathChar (c : Char) : Bool :=
  isUnreserved c || c = '/'

/-- Characters of the host names that the embedding of `JoinPath` covers. -/
def isHostChar (c : Char) : Bool :=
  c.isAlphanum || c = '-' || c = '.'

/-- Elements of a path between its slashes. -/
def splitSlash : List Char → List (List Char)
  | [] => [[]]
  | c :: cs =>
    if c = '/' then [] :: splitSlash cs
    else
      match splitSlash cs with
      | [] => [[c]]
      | seg :: segs => (c :: seg) :: segs

/-- Elements put together with a slash between neighbours. -/
def joinSlash : List (List Char) → List Char
  | [] => []
  | [x] => x
  | x :: y :: rest => x ++ '/' :: joinSlash (y :: rest)

/-- One element met by `path.Clean`, with the elements kept so far (latest first): an empty
element and `.` are dropped, `..` removes the element before it (in a path that is not
rooted it is kept when there is none to remove), any other element is kept. -/
def cleanStep (rooted : Bool) (kept : List (List Char)) (seg : List Char) : List (List Char) :=
  if seg = [] ∨ seg = ['.'] then kept
  else if seg = ['.', '.'] then
    match kept with
    | top :: below => if top = ['.', '.'] then seg :: kept else below
    | [] => if rooted then [] else [seg]
  else seg :: kept

/-- Go `path.Clean`. -/
def pathClean (p : List Char) : List Char :=
  let rooted : Bool := p.head? = some '/'
  let kept := (splitSlash p).foldl (cleanStep rooted) []
  let out := (if rooted then ['/'] else []) ++ joinSlash kept.reverse
  if out = [] then ['.'] else out

/-- Go `path.Join`: the elements from the first one that is not empty, joined by slashes and
cleaned; the empty string when all are empty. -/
def pathJoin (elem : List (List Char)) : List Char :=
  match elem.dropWhile (· = []) with
  | [] => []
  | parts => pathClean (joinSlash parts)

/-- Method `URL.JoinPath` on the escaped path of the URL: the new path. -/
def urlJoinPath (escapedPath : List Char) (elem : List (List Char)) : List Char :=
  let rooted : Bool := escapedPath.head? = some '/'
  let first := if rooted then escapedPath else '/' :: escapedPath
  let elems := first :: elem
  let p := if rooted then pathJoin elems else (pathJoin elems).drop 1
  if (elems.getLast?.getD []).getLast? = some '/' ∧ p.getLast? ≠ some '/' then p ++ ['/']
  else p

/-- Port and what follows it, after the host of a base URL: a colon with the digits behind
it, or no port at all. -/
def splitPort (afterHost : List Char) : List Char × List Char :=
  match afterHost with
  | ':' :: r => (':' :: r.takeWhile Char.isDigit, r.dropWhile Char.isDigit)
  | _ => ([], afterHost)

/-- Base URLs on which `JoinPath` is modelled, split into `scheme://host[:port]` and the
path: a scheme of lower-case letters, a host of letters, digits, `-` and `.`, an optional
numeric port, and a path that is empty or starts with `/` and is written with unreserved
characters and slashes (no query, fragment, user information or percent-escape). -/
def splitBase (base : String) : Option (String × String) :=
  let cs := base.data
  let scheme := cs.takeWhile Char.isLower
  match cs.dropWhile Char.isLower with
  | ':' :: '/' :: '/' :: rest =>
    let host := rest.takeWhile isHostChar
    let pp := splitPort (rest.dropWhile isHostChar)
    if scheme ≠ [] ∧ host ≠ [] ∧ pp.1 ≠ [':'] ∧ (pp.2 = [] ∨ pp.2.head? = some '/')
        ∧ pp.2.all isPathChar = true then
      some (⟨scheme ++ [':', '/', '/'] ++ host ++ pp.1⟩, ⟨pp.2⟩)
    else none
  | _ => none

/-- Go `url.JoinPath(base, elem...)`: the base is parsed, the elements are joined to its
path, the path is cleaned and the URL is printed; a slash separates host and path.  Modelled
for a base accepted by `splitBase` and elements written with unreserved characters and
slashes, where parsing succeeds and printing escapes nothing. -/
def JoinPath (lib : Lib) (base : String) (elem : List String) : String × Option String :=
  match splitBase base with
  | some (origin, path) =>
    if elem.all (fun e => e.data.all isPathChar) then
      let p := urlJoinPath path.data (elem.map (·.data))
      let sep := if p ≠ [] ∧ p.head? ≠ some '/' then "/" else ""
      (origin ++ sep ++ ⟨p⟩, none)
    else lib.joinPathRest base elem
  | none => lib.joinPathRest base elem

/-- Method `Session.BaseURL`. -/
def Session.BaseURL (lib : Lib) (s : Session) : String :=
  let (baseURL, _) := JoinPath lib s.serverify.client.BaseURL ["mock", s.Name]
  baseURL

/-! ## Sequences of operations on a session -/

/-- Operations of a session handle. -/
inductive Op where
  | Name
  | Logs
  | Delete
  | BaseURL
  deriving DecidableEq, Repr

/-- What an operation returns. -/
inductive Output where
  | name (v : String)
  | logs (v : Option Logs) (err : Option GoError)
  | delete (err : Option GoError)
  | baseURL (v : String)
  deriving DecidableEq, Repr

/-- A session handle together with the remote side. -/
structure State where
  session : Session
  net : Network

/-- One operation on the handle.  No method of `Session` assigns to the receiver or to the
`Serverify` behind it, so the handle goes on as it is. -/
def State.step (lib : Lib) (st : State) : Op → Output × State
  | .Name => (.name st.session.Name, st)
  | .Logs =>
    let r := st.session.Logs lib st.net
    (.logs r.1 r.2.1, { st with net := r.2.2 })
  | .Delete =>
    let r := st.session.Delete lib st.net
    (.delete r.1, { st with net := r.2 })
  | .BaseURL => (.baseURL (st.session.BaseURL lib), st)

/-- A sequence of operations on the handle, with their outputs. -/
def State.run (lib : Lib) : State → List Op → List Output × State
  | st, [] => ([], st)
  | st, op :: ops =>
    let r := st.step lib op
    let rs := State.run lib r.2 ops
    (r.1 :: rs.1, rs.2)

/-! ## Wire format of the service

The documents of the interface table: the body of a created session, the error envelope and
the request log. -/

/-- Success body of create session: `{"session": name}`. -/
def sessionBody (name : String) : JSON :=
  .obj [("session", .str name)]

/-- Error envelope: `{"serverify_error": {"message": m}}`. -/
def errorEnvelope (m : String) : JSON :=
  .obj [("serverify_error", .obj [("message", .str m)])]

/-- Values of the members of an object that the decoder stores into the field `name`. -/
def JSON.membersFor (lib : Lib) (name : String) : JSON → List JSON
  | .obj ms => (ms.filter (fun kv => (lib.fieldIndex [name] kv.1).isSome)).map (·.2)
  | _ => []

/-- The string a document is, if it is one. -/
def JSON.str? : JSON → Option String
  | .str s => some s
  | _ => none

/-- Strings found at `serverify_error.message` in a document, in document order. -/
def envelopeMessages (lib : Lib) (v : JSON) : List String :=
  ((v.membersFor lib "serverify_error").flatMap (JSON.membersFor lib "message")).filterMap
    JSON.str?

/-- The response carries the JSON document `v`: it is labelled JSON, its body is the text of
`v`, and it is not a 204 No Content reply, which has no body. -/
def HTTPResponse.carries (r : HTTPResponse) (v : JSON) : Prop :=
  r.json = true ∧ r.status ≠ 204 ∧ r.body = some v

/-- Message carried by a response: the last string at `serverify_error.message` of a JSON
body, the empty string when there is none or the response is not JSON. -/
def HTTPResponse.message (lib : Lib) (r : HTTPResponse) : String :=
  match r.json, r.body with
  | true, some v => (envelopeMessages lib v).getLast?.getD ""
  | _, _ => ""

/-- One log entry as the server reports it; the timestamp is RFC 3339 text. -/
structure WireLog where
  method : String
  headers : StringMap
  path : String
  query : StringMap
  body : String
  requestedAt : String
  deriving DecidableEq, Repr

/-- JSON object of a string map. -/
def encodeStringMap (m : StringMap) : JSON :=
  .obj (m.map (fun kv => (kv.1, JSON.str kv.2)))

/-- JSON object of a log entry:
`{"method", "headers", "path", "query", "body", "requestedAt"}`. -/
def encodeLog (e : WireLog) : JSON :=
  .obj [("method", .str e.method), ("headers", encodeStringMap e.headers),
        ("path", .str e.path), ("query", encodeStringMap e.query),
        ("body", .str e.body), ("requestedAt", .str e.requestedAt)]

/-- Success body of fetch logs: `{"histories": [...]}`. -/
def logsBody (entries : List WireLog) : JSON :=
  .obj [("histories", .arr (entries.map encodeLog))]

/-- The `Log` that a reported entry stands for, when its timestamp is valid. -/
def WireLog.toLog (lib : Lib) (e : WireLog) : Option Log :=
  (lib.parseTime e.requestedAt).map
    (fun t => ⟨e.method, e.headers, e.path, e.query, e.body, t⟩)

/-! ## A concrete library and the servers of the test suite -/

/-- Value of a decimal digit. -/
def digitVal (c : Char) : Option Nat :=
  if c.isDigit then some (c.toNat - 48) else none

/-- Value of a run of decimal digits. -/
def digitsVal (cs : List Char) : Option Nat :=
  cs.foldl (fun acc c => acc.bind (fun n => (digitVal c).map (fun d => 10 * n + d))) (some 0)

/-- Days in a month of the Gregorian calendar. -/
def daysInMonth (y m : Nat) : Nat :=
  if m = 2 then (if y % 4 = 0 ∧ (y % 100 ≠ 0 ∨ y % 400 = 0) then 29 else 28)
  else if m = 4 ∨ m = 6 ∨ m = 9 ∨ m = 11 then 30
  else 31

/-- Days from 1970-01-01 to a date of the Gregorian calendar. -/
def daysFromCivil (y m d : Nat) : Int :=
  let yy := y + 400 - (if m ≤ 2 then 1 else 0)
  let era := yy / 400
  let yoe := yy % 400
  let mp := if m > 2 then m - 3 else m + 9
  let doy := (153 * mp + 2) / 5 + d - 1
  let doe := yoe * 365 + yoe / 4 - yoe / 100 + doy
  ((era * 146097 + doe : Nat) : Int) - 719468 - 146097

/-- Instant of a date and time of day at a given offset from UTC in seconds. -/
def civilTime (y mo d h mi s : Nat) (offset : Int) : Option Time :=
  if 1 ≤ mo ∧ mo ≤ 12 ∧ 1 ≤ d ∧ d ≤ daysInMonth y mo ∧ h ≤ 23 ∧ mi ≤ 59 ∧ s ≤ 59 then
    some ⟨((daysFromCivil y mo d * 86400 + (h * 3600 + mi * 60 + s : Nat)) - offset)
      * 1000000000⟩
  else none

/-- RFC 3339 timestamps without fractional seconds: `YYYY-MM-DDTHH:MM:SS` followed by `Z`
or by an offset `+HH:MM` or `-HH:MM`. -/
def parseRFC3339 (s : String) : Option Time :=
  match s.data with
  | [y1, y2, y3, y4, '-', m1, m2, '-', d1, d2, 'T', h1, h2, ':', n1, n2, ':', s1, s2, 'Z'] =>
    do
      let y ← digitsVal [y1, y2, y3, y4]
      let mo ← digitsVal [m1, m2]
      let d ← digitsVal [d1, d2]
      let h ← digitsVal [h1, h2]
      let mi ← digitsVal [n1, n2]
      let sec ← digitsVal [s1, s2]
      civilTime y mo d h mi sec 0
  | [y1, y2, y3, y4, '-', m1, m2, '-', d1, d2, 'T', h1, h2, ':', n1, n2, ':', s1, s2,
      sign, o1, o2, ':', o3, o4] =>
    do
      let y ← digitsVal [y1, y2, y3, y4]
      let mo ← digitsVal [m1, m2]
      let d ← digitsVal [d1, d2]
      let h ← digitsVal [h1, h2]
      let mi ← digitsVal [n1, n2]
      let sec ← digitsVal [s1, s2]
      let oh ← digitsVal [o1, o2]
      let om ← digitsVal [o3, o4]
      if oh ≤ 23 ∧ om ≤ 59 then
        if sign = '+' then civilTime y mo d h mi sec ((oh * 3600 + om * 60 : Nat) : Int)
        else if sign = '-' then civilTime y mo d h mi sec (-((oh * 3600 + om * 60 : Nat) : Int))
        else none
      else none
  | _ => none

/-- A concrete library: names fold by ASCII upper-casing, timestamps are read by
`parseRFC3339`, and `JoinPath` yields an error outside the modelled fragment. -/
def Lib.std : Lib where
  foldName := fun s => ⟨s.data.map Char.toUpper⟩
  parseTime := parseRFC3339
  joinPathRest := fun _ _ => ("", some "url: not modelled")

/-- Test server `testHandler`: every call is answered with the same status code and body,
labelled `application/json`. -/
def testHandler (statusCode : Int) (body : Option JSON) : Network :=
  ⟨fun _ _ => .response ⟨statusCode, true, body⟩, []⟩

/-- Address of the test server (`ts.URL`). -/
def tsURL : String := "http://127.0.0.1:8080"

/-- Remote side that cannot be reached: every call fails in the transport. -/
def unreachable (reason : String) : Network :=
  ⟨fun _ _ => .failure reason, []⟩

/-! # Theorems -/

/-! ## Field selection and the error envelope -/

theorem fieldIndex_singleton (lib : Lib) (n k : String) :
    lib.fieldIndex [n] k = if n = k ∨ lib.foldName n = lib.foldName k then some 0 else none := by
  simp only [Lib.fieldIndex, List.indexOf?, List.map]
  by_cases h1 : n = k
  · simp [h1]
  · by_cases h2 : lib.foldName n = lib.foldName k
    · simp [h1, h2]
    · simp [h1, h2]

theorem fieldIndex_self (lib : Lib) (n : String) : lib.fieldIndex [n] n = some 0 := by
  simp [fieldIndex_singleton]

theorem getLastD_append {α : Type} (l l' : List α) (d : α) :
    (l ++ l').getLast?.getD d = l'.getLast?.getD (l.getLast?.getD d) := by
  rw [List.getLast?_append]
  cases l'.getLast? <;> simp

theorem getLastD_cons {α : Type} (a : α) (l : List α) (d : α) :
    (a :: l).getLast?.getD d = l.getLast?.getD a := by
  rw [List.getLast?_cons]
  simp

/-- Decoding the members of the inner object leaves the last string stored under `message`,
or the message held before. -/
theorem ErrorBody_decodeMembers_message (lib : Lib) (ms : List (String × JSON))
    (cur : ErrorBody) :
    (decodeMembers (ErrorBody.setField lib) ms cur).1.Message
      = (((JSON.obj ms).membersFor lib "message").filterMap JSON.str?).getLast?.getD
          cur.Message := by
  induction ms generalizing cur with
  | nil => simp [decodeMembers, JSON.membersFor]
  | cons kv rest ih =>
    obtain ⟨k, v⟩ := kv
    simp only [decodeMembers, JSON.membersFor] at ih ⊢
    rw [ih]
    simp only [ErrorBody.setField, fieldIndex_singleton, List.filter_cons]
    by_cases h : "message" = k ∨ lib.foldName "message" = lib.foldName k
    · simp only [h, if_true, Option.isSome_some, List.map_cons, List.filterMap_cons]
      cases v <;> simp [unmarshalString, JSON.str?, getLastD_cons]
    · simp [h]

/-- Decoding a document into the inner struct leaves the last string stored under
`message`, or the message held before. -/
theorem ErrorBody_decodeStruct_message (lib : Lib) (v : JSON) (cur : ErrorBody) :
    (decodeStruct (ErrorBody.setField lib) v cur).1.Message
      = ((v.membersFor lib "message").filterMap JSON.str?).getLast?.getD cur.Message := by
  cases v with
  | obj ms => exact ErrorBody_decodeMembers_message lib ms cur
  | _ => simp [decodeStruct, JSON.membersFor]

/-- Decoding the members of the outer object leaves the last string found at
`serverify_error.message`, or the message held before. -/
theorem errorResponse_decodeMembers_message (lib : Lib) (ms : List (String × JSON))
    (cur : errorResponse) :
    (decodeMembers (errorResponse.setField lib) ms cur).1.ServerifyError.Message
      = (envelopeMessages lib (.obj ms)).getLast?.getD cur.ServerifyError.Message := by
  induction ms generalizing cur with
  | nil => simp [decodeMembers, envelopeMessages, JSON.membersFor]
  | cons kv rest ih =>
    obtain ⟨k, v⟩ := kv
    simp only [decodeMembers, envelopeMessages, JSON.membersFor] at ih ⊢
    rw [ih]
    simp only [errorResponse.setField, fieldIndex_singleton, List.filter_cons]
    by_cases h : "serverify_error" = k ∨ lib.foldName "serverify_error" = lib.foldName k
    · simp only [h, if_true, Option.isSome_some, List.map_cons, List.flatMap_cons,
        List.filterMap_append, getLastD_append]
      rw [ErrorBody_decodeStruct_message]
    · simp [h]

/-- Unmarshal into `errorResponse` leaves the last string found at
`serverify_error.message`, or the message held before. -/
theorem errorResponse_unmarshal_message (lib : Lib) (v : JSON) (cur : errorResponse) :
    (errorResponse.unmarshal lib v cur).1.ServerifyError.Message
      = (envelopeMessages lib v).getLast?.getD cur.ServerifyError.Message := by
  cases v with
  | obj ms => exact errorResponse_decodeMembers_message lib ms cur
  | _ => simp [errorResponse.unmarshal, decodeStruct, envelopeMessages, JSON.membersFor]

/-! ## The mediator -/

/-- Every `doRequest` makes exactly one call: the method, path and body it was given, against
the base URL of the client. -/
theorem doRequest_net {α : Type} (lib : Lib) (s : Serverify) (method path : String)
    (body : Option StringMap) (result : Option (Sink α)) (net : Network) :
    (s.doRequest lib method path body result net).net
      = ⟨net.respond, net.calls ++ [⟨s.client.BaseURL, method, path, body⟩]⟩ := by
  cases body <;> cases result <;>
    simp only [Serverify.doRequest, Request.Execute, Client.R, Request.SetError,
      Request.SetBody, Request.SetResult] <;>
    split <;> split <;> (try split) <;> rfl

/-- A failure of the transport is returned as it is. -/
theorem doRequest_failure {α : Type} (lib : Lib) (s : Serverify) (method path : String)
    (body : Option StringMap) (result : Option (Sink α)) (net : Network) (reason : String)
    (h : net.respond net.calls ⟨s.client.BaseURL, method, path, body⟩ = .failure reason) :
    (s.doRequest lib method path body result net).err = some (.transport ⟨reason⟩) := by
  cases body <;> cases result <;>
    simp [Serverify.doRequest, Request.Execute, Client.R, Request.SetError,
      Request.SetBody, Request.SetResult, h]

/-- A response with status 400 or above gives the operation error of that status, with the
message of the response. -/
theorem doRequest_error_status {α : Type} (lib : Lib) (s : Serverify) (method path : String)
    (body : Option StringMap) (result : Option (Sink α)) (net : Network) (r : HTTPResponse)
    (h : net.respond net.calls ⟨s.client.BaseURL, method, path, body⟩ = .response r)
    (hs : 400 ≤ r.status) :
    (s.doRequest lib method path body result net).err
      = some (.api ⟨r.status, ⟨r.message lib⟩⟩) := by
  have h204 : ¬ r.status = 204 := by omega
  have h300 : ¬ r.status < 300 := by omega
  have h399 : 399 < r.status := by omega
  obtain ⟨st, js, bd⟩ := r
  simp only at h204 h300 h399
  cases body <;> cases result <;> cases js <;> cases bd <;>
    simp [Serverify.doRequest, Request.Execute, Client.R, Request.SetError,
      Request.SetBody, Request.SetResult, h, parseResponseBody, Response.StatusCode,
      Response.IsSuccess, Response.IsError, h204, h300, h399, HTTPResponse.message,
      unmarshalBody, errorResponse_unmarshal_message]

/-- Without a result sink a response with a status below 400 gives no error. -/
theorem doRequest_no_sink {α : Type} (lib : Lib) (s : Serverify) (method path : String)
    (body : Option StringMap) (net : Network) (r : HTTPResponse)
    (h : net.respond net.calls ⟨s.client.BaseURL, method, path, body⟩ = .response r)
    (hs : r.status < 400) :
    (s.doRequest lib method path body (none : Option (Sink α)) net).err = none := by
  obtain ⟨st, js, bd⟩ := r
  have h399 : ¬ 399 < st := by
    simp only at hs
    omega
  cases body <;> cases js <;>
    simp [Serverify.doRequest, Request.Execute, Client.R, Request.SetError,
      Request.SetBody, h, parseResponseBody, Response.StatusCode,
      Response.IsSuccess, Response.IsError, h399]

/-- A JSON response with a success status other than 204 is decoded into the result sink:
the outcome of the decode is the outcome of the request. -/
theorem doRequest_success {α : Type} (lib : Lib) (s : Serverify) (method path : String)
    (body : Option StringMap) (sink : Sink α) (net : Network) (st : Int) (bd : Option JSON)
    (h : net.respond net.calls ⟨s.client.BaseURL, method, path, body⟩
      = .response ⟨st, true, bd⟩)
    (h200 : 200 ≤ st) (h299 : st ≤ 299) (h204 : st ≠ 204) :
    (s.doRequest lib method path body (some sink) net).err
        = ((unmarshalBody sink.unmarshal bd sink.value).2.map
            (fun e => GoError.transport ⟨e⟩))
      ∧ (s.doRequest lib method path body (some sink) net).result
        = some (unmarshalBody sink.unmarshal bd sink.value).1 := by
  have h199 : 199 < st := by omega
  have h300 : st < 300 := by omega
  have h399 : ¬ 399 < st := by omega
  cases body <;>
    simp only [Serverify.doRequest, Request.Execute, Client.R, Request.SetError,
      Request.SetBody, Request.SetResult, h, parseResponseBody, Response.StatusCode,
      Response.IsSuccess, Response.IsError, h199, h300, h399, h204] <;>
    cases hd : (unmarshalBody sink.unmarshal bd sink.value).2 <;> simp [hd, h399]

theorem envelopeMessages_errorEnvelope (lib : Lib) (m : String) :
    envelopeMessages lib (errorEnvelope m) = [m] := by
  simp [envelopeMessages, errorEnvelope, JSON.membersFor, fieldIndex_self, JSON.str?]

theorem SessionResult_unmarshal_sessionBody (lib : Lib) (n : String) (cur : SessionResult) :
    SessionResult.unmarshal lib (sessionBody n) cur = (⟨n⟩, none) := by
  simp [SessionResult.unmarshal, sessionBody, decodeStruct, decodeMembers,
    SessionResult.setField, fieldIndex_self, unmarshalString, firstErr]

/-! ## Create session -/

/-- C1: when the server answers create-session with a 4xx or 5xx status `c` and the JSON
error envelope with message `m`, `CreateSession` returns no session and the error
`Error{StatusCode: c, Message: m}`. -/
theorem CreateSession_error_envelope (lib : Lib) (s : Serverify) (name : String)
    (net : Network) (r : HTTPResponse) (m : String)
    (h : net.respond net.calls ⟨s.client.BaseURL, "POST", "/session", some [("session", name)]⟩
      = .response r)
    (hc : 400 ≤ r.status ∧ r.status ≤ 599) (hb : r.carries (errorEnvelope m)) :
    (s.CreateSession lib name net).1 = none
      ∧ (s.CreateSession lib name net).2.1 = some (.api ⟨r.status, ⟨m⟩⟩) := by
  have herr := doRequest_error_status lib s "POST" "/session" (some [("session", name)])
    (some ⟨({} : SessionResult), SessionResult.unmarshal lib⟩) net r h hc.1
  have hm : r.message lib = m := by
    obtain ⟨hj, _, hbody⟩ := hb
    simp [HTTPResponse.message, hj, hbody, envelopeMessages_errorEnvelope]
  simp [Serverify.CreateSession, herr, hm]

/-- C1 on the test suite: status 409 with the already-exists envelope. -/
theorem CreateSession_error_envelope_conflict :
    (400 ≤ (409 : Int) ∧ (409 : Int) ≤ 599)
      ∧ ((New tsURL).CreateSession Lib.std "test_session"
          (testHandler 409
            (some (errorEnvelope "session \"test_session\" is already exists")))).1 = none
      ∧ ((New tsURL).CreateSession Lib.std "test_session"
          (testHandler 409
            (some (errorEnvelope "session \"test_session\" is already exists")))).2.1
        = some (.api ⟨409, ⟨"session \"test_session\" is already exists"⟩⟩) :=
  ⟨by decide,
    CreateSession_error_envelope Lib.std (New tsURL) "test_session"
      (testHandler 409 (some (errorEnvelope "session \"test_session\" is already exists")))
      ⟨409, true, some (errorEnvelope "session \"test_session\" is already exists")⟩
      "session \"test_session\" is already exists" rfl (by decide) ⟨rfl, by decide, rfl⟩⟩

/-- C2: `CreateSession(n)` makes exactly one call, a POST to `/session` with body
`{"session": n}`; when the answer is a success response carrying `{"session": n'}` it returns
no error and a session whose name is `n'` and whose mediator is the receiver. -/
theorem CreateSession_success (lib : Lib) (s : Serverify) (n n' : String)
    (net : Network) (r : HTTPResponse)
    (h : net.respond net.calls ⟨s.client.BaseURL, "POST", "/session", some [("session", n)]⟩
      = .response r)
    (hc : 200 ≤ r.status ∧ r.status ≤ 299) (hb : r.carries (sessionBody n')) :
    (s.CreateSession lib n net).2.2.calls
        = net.calls ++ [⟨s.client.BaseURL, "POST", "/session", some [("session", n)]⟩]
      ∧ (s.CreateSession lib n net).2.1 = none
      ∧ ∃ session, (s.CreateSession lib n net).1 = some session
          ∧ session.Name = n' ∧ session.serverify = s := by
  obtain ⟨st, js, bd⟩ := r
  obtain ⟨hj, h204, hbody⟩ := hb
  simp only at hj h204 hbody hc
  subst hj hbody
  have hd := doRequest_success lib s "POST" "/session" (some [("session", n)])
    ⟨({} : SessionResult), SessionResult.unmarshal lib⟩ net st (some (sessionBody n')) h
    hc.1 hc.2 h204
  have hn := doRequest_net lib s "POST" "/session" (some [("session", n)])
    (some ⟨({} : SessionResult), SessionResult.unmarshal lib⟩) net
  simp only [unmarshalBody, SessionResult_unmarshal_sessionBody, Option.map_none'] at hd
  simp [Serverify.CreateSession, hd.1, hd.2, hn, Session.Name]

/-- C2 on the test suite: status 202 and the name `test_session` both ways. -/
theorem CreateSession_success_accepted :
    (200 ≤ (202 : Int) ∧ (202 : Int) ≤ 299)
      ∧ ((New tsURL).CreateSession Lib.std "test_session"
          (testHandler 202 (some (sessionBody "test_session")))).2.2.calls
        = [⟨tsURL, "POST", "/session", some [("session", "test_session")]⟩]
      ∧ ((New tsURL).CreateSession Lib.std "test_session"
          (testHandler 202 (some (sessionBody "test_session")))).2.1 = none
      ∧ ∃ session, ((New tsURL).CreateSession Lib.std "test_session"
          (testHandler 202 (some (sessionBody "test_session")))).1 = some session
          ∧ session.Name = "test_session" ∧ session.serverify = New tsURL :=
  ⟨by decide,
    CreateSession_success Lib.std (New tsURL) "test_session" "test_session"
      (testHandler 202 (some (sessionBody "test_session")))
      ⟨202, true, some (sessionBody "test_session")⟩ rfl (by decide) ⟨rfl, by decide, rfl⟩⟩

/-- C10: `CreateSession` returns a session exactly when it returns no error, and in every
outcome it has made exactly one call. -/
theorem CreateSession_session_xor_error (lib : Lib) (s : Serverify) (name : String)
    (net : Network) :
    ((s.CreateSession lib name net).1.isSome ↔ (s.CreateSession lib name net).2.1 = none)
      ∧ (s.CreateSession lib name net).2.2.calls
        = net.calls ++ [⟨s.client.BaseURL, "POST", "/session", some [("session", name)]⟩] := by
  have hn := doRequest_net lib s "POST" "/session" (some [("session", name)])
    (some ⟨({} : SessionResult), SessionResult.unmarshal lib⟩) net
  simp only [Serverify.CreateSession]
  split <;> simp_all

/-! ## Classification of the response status -/

/-- What `doRequest` returns, read off the outcome of `Execute` on the request it builds:
the error of `Execute` when there is one, else the operation error when the status is above
399, else nil. -/
theorem doRequest_err_of_execute {α : Type} (lib : Lib) (s : Serverify)
    (method path : String) (body : Option StringMap) (result : Option (Sink α))
    (net : Network) :
    (s.doRequest lib method path body result net).err
      = match ((s.request body result).Execute lib method path net).err with
        | some e => some (.transport e)
        | none =>
          if 399 < ((s.request body result).Execute lib method path net).res.StatusCode then
            some (.api ⟨((s.request body result).Execute lib method path net).res.StatusCode,
              ⟨((((s.request body result).Execute lib method path net).Error.getD
                {}).ServerifyError.Message)⟩⟩)
          else none := by
  cases body <;> cases result <;>
    simp only [Serverify.doRequest, Serverify.request, Response.IsError, gt_iff_lt,
      decide_eq_true_eq] <;>
    split <;> (try split) <;> simp_all

/-- C3, as the code has it: when `Execute` on the request that `doRequest` builds completes
without an error, `doRequest` returns an operation error if and only if the response status
is 400 or above; for every status below 400, so for every 2xx status, it returns nil. -/
theorem doRequest_error_iff_status_400 {α : Type} (lib : Lib) (s : Serverify)
    (method path : String) (body : Option StringMap) (result : Option (Sink α))
    (net : Network)
    (hok : ((s.request body result).Execute lib method path net).err = none) :
    ((∃ e, (s.doRequest lib method path body result net).err = some (.api e))
        ↔ 400 ≤ ((s.request body result).Execute lib method path net).res.StatusCode)
      ∧ (((s.request body result).Execute lib method path net).res.StatusCode < 400
          → (s.doRequest lib method path body result net).err = none) := by
  rw [doRequest_err_of_execute, hok]
  by_cases hs : 399 < ((s.request body result).Execute lib method path net).res.StatusCode
  · rw [if_pos hs]
    refine ⟨⟨fun _ => (by omega), fun _ => ⟨_, rfl⟩⟩, fun hlt => ?_⟩
    omega
  · rw [if_neg hs]
    refine ⟨⟨fun ⟨e, he⟩ => (by cases he), fun h400 => ?_⟩, fun _ => rfl⟩
    omega

/-- C3 at work: a 404 reply to a GET without sink is an operation error, and a 202 reply to
a POST with a body and a result sink, decoded without error, gives nil; in both `Execute`
reports no error. -/
theorem doRequest_error_iff_status_400_examples :
    (((New tsURL).request none (none : Option (Sink Unit))).Execute Lib.std "GET"
          "/session/test_session" (testHandler 404 none)).err = none
      ∧ (∃ e, ((New tsURL).doRequest Lib.std "GET" "/session/test_session" none
          (none : Option (Sink Unit)) (testHandler 404 none)).err = some (.api e))
      ∧ (((New tsURL).request (some [("session", "test_session")])
            (some ⟨({} : SessionResult), SessionResult.unmarshal Lib.std⟩)).Execute Lib.std
          "POST" "/session" (testHandler 202 (some (sessionBody "test_session")))).err = none
      ∧ ((New tsURL).doRequest Lib.std "POST" "/session" (some [("session", "test_session")])
          (some ⟨({} : SessionResult), SessionResult.unmarshal Lib.std⟩)
          (testHandler 202 (some (sessionBody "test_session")))).err = none :=
  ⟨by decide,
    (doRequest_error_iff_status_400 Lib.std (New tsURL) "GET" "/session/test_session" none
      (none : Option (Sink Unit)) (testHandler 404 none) (by decide)).1.mpr (by decide),
    by decide,
    (doRequest_error_iff_status_400 Lib.std (New tsURL) "POST" "/session"
      (some [("session", "test_session")])
      (some ⟨({} : SessionResult), SessionResult.unmarshal Lib.std⟩)
      (testHandler 202 (some (sessionBody "test_session"))) (by decide)).2 (by decide)⟩

/-- C3 fails as stated: status 304 is outside 200..299, the transport completes without
failure, and `doRequest` returns nil. -/
theorem doRequest_nil_on_not_modified :
    (testHandler 304 none).respond [] ⟨tsURL, "GET", "/session/test_session", none⟩
        = .response ⟨304, true, none⟩
      ∧ ¬ (200 ≤ (304 : Int) ∧ (304 : Int) ≤ 299)
      ∧ ((New tsURL).doRequest Lib.std "GET" "/session/test_session" none (none : Option (Sink Unit))
          (testHandler 304 none)).err = none :=
  ⟨rfl, by decide, by decide⟩

/-- C4: for a response with an error status whose body is not decoded as an error envelope
(it is not labelled JSON, or is not valid JSON) or holds no string at
`serverify_error.message`, `doRequest` returns the operation error with that status and the
empty message. -/
theorem doRequest_error_without_message {α : Type} (lib : Lib) (s : Serverify)
    (method path : String) (body : Option StringMap) (result : Option (Sink α))
    (net : Network) (r : HTTPResponse)
    (h : net.respond net.calls ⟨s.client.BaseURL, method, path, body⟩ = .response r)
    (hs : 400 ≤ r.status)
    (hb : r.json = false ∨ r.body = none
      ∨ ∃ v, r.body = some v ∧ envelopeMessages lib v = []) :
    (s.doRequest lib method path body result net).err = some (.api ⟨r.status, ⟨""⟩⟩) := by
  rw [doRequest_error_status lib s method path body result net r h hs]
  have hm : r.message lib = "" := by
    obtain ⟨st, js, bd⟩ := r
    rcases hb with hj | hn | ⟨v, hv, he⟩
    · simp only at hj
      simp [HTTPResponse.message, hj]
    · simp only at hn
      cases js <;> simp [HTTPResponse.message, hn]
    · simp only at hv
      cases js <;> simp [HTTPResponse.message, hv, he]
  rw [hm]

/-- C4 at work: a 500 reply whose body is not JSON text, and a 404 reply whose envelope has
no message. -/
theorem doRequest_error_without_message_examples :
    ((New tsURL).doRequest Lib.std "DELETE" "/session/test_session" none (none : Option (Sink Unit))
        (testHandler 500 none)).err = some (.api ⟨500, ⟨""⟩⟩)
      ∧ ((New tsURL).doRequest Lib.std "DELETE" "/session/test_session" none (none : Option (Sink Unit))
        (testHandler 404 (some (.obj [("serverify_error", .obj [])])))).err
          = some (.api ⟨404, ⟨""⟩⟩) :=
  ⟨doRequest_error_without_message Lib.std (New tsURL) "DELETE" "/session/test_session" none
      none (testHandler 500 none) ⟨500, true, none⟩ rfl (by decide) (Or.inr (Or.inl rfl)),
    doRequest_error_without_message Lib.std (New tsURL) "DELETE" "/session/test_session" none
      none (testHandler 404 (some (.obj [("serverify_error", .obj [])])))
      ⟨404, true, some (.obj [("serverify_error", .obj [])])⟩ rfl (by decide)
      (Or.inr (Or.inr ⟨_, rfl, by decide⟩))⟩

/-! ## Delete -/

/-- C5, as the code has it: `Delete()` makes exactly one call, a DELETE to
`/session/` followed by the name, without a body; it decodes no success body; when the
server answers, the result is nil for a status below 400, whatever the body, and the
operation error with the status and the message of the response for a status of 400 or
above. -/
theorem Delete_one_call_and_result (lib : Lib) (s : Session) (net : Network) :
    (s.Delete lib net).2.calls
        = net.calls ++ [⟨s.serverify.client.BaseURL, "DELETE", "/session/" ++ s.name, none⟩]
      ∧ ∀ r, net.respond net.calls
            ⟨s.serverify.client.BaseURL, "DELETE", "/session/" ++ s.name, none⟩ = .response r →
          (s.Delete lib net).1
            = if 400 ≤ r.status then some (.api ⟨r.status, ⟨r.message lib⟩⟩) else none := by
  constructor
  · simp [Session.Delete, doRequest_net, Session.Name]
  · intro r h
    by_cases hs : 400 ≤ r.status
    · simp only [Session.Delete, Session.Name, hs, if_true]
      exact doRequest_error_status lib s.serverify "DELETE" _ none none net r h hs
    · simp only [Session.Delete, Session.Name, hs, if_false]
      exact doRequest_no_sink lib s.serverify "DELETE" _ none net r h (by omega)

/-- C5 on the test suite: 200 gives nil and 404 with the not-found envelope gives
`Error{404, session "test_session" is not found}`, each after one DELETE call. -/
theorem Delete_one_call_and_result_examples :
    ((Session.mk "test_session" (New tsURL)).Delete Lib.std
          (testHandler 200 (some (sessionBody "test_session")))).2.calls
        = [⟨tsURL, "DELETE", "/session/test_session", none⟩]
      ∧ ((Session.mk "test_session" (New tsURL)).Delete Lib.std
          (testHandler 200 (some (sessionBody "test_session")))).1 = none
      ∧ ((Session.mk "test_session" (New tsURL)).Delete Lib.std
          (testHandler 404
            (some (errorEnvelope "session \"test_session\" is not found")))).2.calls
        = [⟨tsURL, "DELETE", "/session/test_session", none⟩]
      ∧ ((Session.mk "test_session" (New tsURL)).Delete Lib.std
          (testHandler 404
            (some (errorEnvelope "session \"test_session\" is not found")))).1
        = some (.api ⟨404, ⟨"session \"test_session\" is not found"⟩⟩) :=
  ⟨(Delete_one_call_and_result Lib.std (Session.mk "test_session" (New tsURL))
      (testHandler 200 (some (sessionBody "test_session")))).1,
    (Delete_one_call_and_result Lib.std (Session.mk "test_session" (New tsURL))
      (testHandler 200 (some (sessionBody "test_session")))).2
      ⟨200, true, some (sessionBody "test_session")⟩ rfl,
    (Delete_one_call_and_result Lib.std (Session.mk "test_session" (New tsURL))
      (testHandler 404 (some (errorEnvelope "session \"test_session\" is not found")))).1,
    (Delete_one_call_and_result Lib.std (Session.mk "test_session" (New tsURL))
      (testHandler 404 (some (errorEnvelope "session \"test_session\" is not found")))).2
      ⟨404, true, some (errorEnvelope "session \"test_session\" is not found")⟩ rfl⟩

/-- C5 fails as stated: a 304 reply is not a success status, and `Delete()` returns nil
for it rather than an operation error. -/
theorem Delete_nil_on_not_modified :
    (Response.mk 304).IsSuccess = false
      ∧ ((Session.mk "test_session" (New tsURL)).Delete Lib.std
          (testHandler 304 (some (errorEnvelope "session \"test_session\" is not found")))).1
        = none :=
  ⟨by decide, by decide⟩

/-! ## Failures of the transport -/

/-- C8: in each of `CreateSession`, `Logs` and `Delete`, when `Execute` on the request of
the operation reports the error `e`, the operation returns exactly `e` (a transport error,
not an `Error` and not nil), returns no session and no logs, and has made that one call and
no other. -/
theorem transport_error_returned_as_is (lib : Lib) (s : Serverify) (session : Session)
    (name : String) (net : Network) (e : TransportError) :
    (((((s.client.R.SetError {}).SetBody [("session", name)]).SetResult
          ⟨({} : SessionResult), SessionResult.unmarshal lib⟩).Execute lib "POST" "/session"
          net).err = some e →
        s.CreateSession lib name net
          = (none, some (.transport e), ⟨net.respond, net.calls ++
              [⟨s.client.BaseURL, "POST", "/session", some [("session", name)]⟩]⟩))
      ∧ ((((session.serverify.client.R.SetError {}).SetResult
          ⟨({} : Serverify.Logs), Logs.unmarshal lib⟩).Execute lib "GET"
          ("/session/" ++ session.name) net).err = some e →
        session.Logs lib net
          = (none, some (.transport e), ⟨net.respond, net.calls ++
              [⟨session.serverify.client.BaseURL, "GET", "/session/" ++ session.name,
                none⟩]⟩))
      ∧ ((((session.serverify.client.R : Request Unit).SetError {}).Execute lib "DELETE"
          ("/session/" ++ session.name) net).err = some e →
        session.Delete lib net
          = (some (.transport e), ⟨net.respond, net.calls ++
              [⟨session.serverify.client.BaseURL, "DELETE", "/session/" ++ session.name,
                none⟩]⟩)) := by
  refine ⟨fun h => ?_, fun h => ?_, fun h => ?_⟩
  · have hn := doRequest_net lib s "POST" "/session" (some [("session", name)])
      (some ⟨({} : SessionResult), SessionResult.unmarshal lib⟩) net
    have he : (s.doRequest lib "POST" "/session" (some [("session", name)])
        (some ⟨({} : SessionResult), SessionResult.unmarshal lib⟩) net).err
          = some (.transport e) := by
      simp only [Serverify.doRequest, h]
    simp only [Serverify.CreateSession, he, hn]
  · have hn := doRequest_net lib session.serverify "GET" ("/session/" ++ session.name) none
      (some ⟨({} : Serverify.Logs), Logs.unmarshal lib⟩) net
    have he : (session.serverify.doRequest lib "GET" ("/session/" ++ session.name) none
        (some ⟨({} : Serverify.Logs), Logs.unmarshal lib⟩) net).err
          = some (.transport e) := by
      simp only [Serverify.doRequest, h]
    simp only [Session.Logs, Session.Name, he, hn]
  · have hn := doRequest_net lib session.serverify "DELETE"
      ("/session/" ++ session.name) none (none : Option (Sink Unit)) net
    have he : (session.serverify.doRequest lib "DELETE"
        ("/session/" ++ session.name) none (none : Option (Sink Unit)) net).err
          = some (.transport e) := by
      simp only [Serverify.doRequest, h]
    simp only [Session.Delete, Session.Name, he, hn]

/-- C8 at work: an unreachable server fails `CreateSession` and `Delete`, and a log entry
whose `requestedAt` is not RFC 3339 fails `Logs` in the decode of the success body. -/
theorem transport_error_returned_as_is_examples :
    ((New tsURL).CreateSession Lib.std "test_session" (unreachable "connection refused")
        = (none, some (.transport ⟨"connection refused"⟩),
            ⟨(unreachable "connection refused").respond,
              [⟨tsURL, "POST", "/session", some [("session", "test_session")]⟩]⟩))
      ∧ ((Session.mk "test_session" (New tsURL)).Logs Lib.std
          (testHandler 200 (some (logsBody [⟨"POST", [], "/test", [], "", "yesterday"⟩])))
        = (none, some (.transport ⟨"parsing time: not an RFC 3339 timestamp"⟩),
            ⟨(testHandler 200
                (some (logsBody [⟨"POST", [], "/test", [], "", "yesterday"⟩]))).respond,
              [⟨tsURL, "GET", "/session/test_session", none⟩]⟩))
      ∧ ((Session.mk "test_session" (New tsURL)).Delete Lib.std
          (unreachable "connection refused")
        = (some (.transport ⟨"connection refused"⟩),
            ⟨(unreachable "connection refused").respond,
              [⟨tsURL, "DELETE", "/session/test_session", none⟩]⟩)) :=
  ⟨(transport_error_returned_as_is Lib.std (New tsURL) (Session.mk "test_session" (New tsURL))
      "test_session" (unreachable "connection refused") ⟨"connection refused"⟩).1 rfl,
    (transport_error_returned_as_is Lib.std (New tsURL) (Session.mk "test_session" (New tsURL))
      "test_session"
      (testHandler 200 (some (logsBody [⟨"POST", [], "/test", [], "", "yesterday"⟩])))
      ⟨"parsing time: not an RFC 3339 timestamp"⟩).2.1 (by decide),
    (transport_error_returned_as_is Lib.std (New tsURL) (Session.mk "test_session" (New tsURL))
      "test_session" (unreachable "connection refused") ⟨"connection refused"⟩).2.2 rfl⟩

/-! ## The handle never changes -/

theorem step_session (lib : Lib) (st : State) (op : Op) :
    (st.step lib op).2.session = st.session := by
  cases op <;> rfl

theorem step_name_output (lib : Lib) (st : State) (op : Op) (v : String)
    (h : (st.step lib op).1 = .name v) : v = st.session.name := by
  cases op <;> simp [State.step, Session.Name] at h
  exact h.symm

/-- C9: after every sequence of `Name`, `Logs`, `Delete` and `BaseURL` on a session,
whatever they returned, the name of the session and the base URL of its mediator are the
ones it was built with, and every `Name()` along the way returned that name. -/
theorem session_unchanged_by_operations (lib : Lib) (st : State) (ops : List Op) :
    (State.run lib st ops).2.session.Name = st.session.name
      ∧ (State.run lib st ops).2.session.serverify.client.BaseURL
        = st.session.serverify.client.BaseURL
      ∧ ∀ v, Output.name v ∈ (State.run lib st ops).1 → v = st.session.name := by
  induction ops generalizing st with
  | nil => simp [State.run, Session.Name]
  | cons op ops ih =>
    have hs := step_session lib st op
    obtain ⟨h1, h2, h3⟩ := ih (st.step lib op).2
    simp only [State.run]
    refine ⟨by rw [h1, hs], by rw [h2, hs], fun v hv => ?_⟩
    rcases List.mem_cons.mp hv with hv | hv
    · exact step_name_output lib st op v hv.symm
    · rw [h3 v hv, hs]

/-- C9 at work: a session on the test server, read, deleted and used again. -/
theorem session_unchanged_by_operations_example :
    (State.run Lib.std
        (State.mk (Session.mk "test_session" (New tsURL))
          (testHandler 200 (some (sessionBody "test_session"))))
        [.Name, .Delete, .Name, .Logs, .BaseURL, .Name]).2.session.Name = "test_session"
      ∧ (State.run Lib.std
          (State.mk (Session.mk "test_session" (New tsURL))
            (testHandler 200 (some (sessionBody "test_session"))))
          [.Name, .Delete, .Name, .Logs, .BaseURL, .Name]).2.session.serverify.client.BaseURL
        = tsURL
      ∧ ∀ v, Output.name v ∈ (State.run Lib.std
          (State.mk (Session.mk "test_session" (New tsURL))
            (testHandler 200 (some (sessionBody "test_session"))))
          [.Name, .Delete, .Name, .Logs, .BaseURL, .Name]).1 → v = "test_session" :=
  session_unchanged_by_operations Lib.std
    (State.mk (Session.mk "test_session" (New tsURL))
      (testHandler 200 (some (sessionBody "test_session"))))
    [.Name, .Delete, .Name, .Logs, .BaseURL, .Name]

/-! ## Fetch logs -/

theorem firstErr_none_right (a : Option String) : firstErr a none = a := by
  cases a <;> rfl

theorem StringMap_set_new (m : StringMap) (k v : String) (h : k ∉ m.map Prod.fst) :
    StringMap.set m k v = m ++ [(k, v)] := by
  induction m with
  | nil => rfl
  | cons kv rest ih =>
    obtain ⟨k', v'⟩ := kv
    simp only [List.map_cons, List.mem_cons, not_or] at h
    have hne : ¬ k' = k := fun hk => h.1 hk.symm
    simp [StringMap.set, hne, ih h.2]

/-- Decoding the object of a string map with distinct keys adds its entries in order. -/
theorem decodeEntries_encode (m cur : StringMap)
    (h : ((cur ++ m).map Prod.fst).Nodup) :
    decodeEntries (m.map (fun kv => (kv.1, JSON.str kv.2))) cur = (cur ++ m, none) := by
  induction m generalizing cur with
  | nil => simp [decodeEntries]
  | cons kv rest ih =>
    obtain ⟨k, v⟩ := kv
    have hk : k ∉ cur.map Prod.fst := by
      simp only [List.map_append, List.map_cons] at h
      have := (List.nodup_append.mp h).2.2
      intro hmem
      exact this hmem (List.mem_cons_self _ _)
    have hrest : (((cur ++ [(k, v)]) ++ rest).map Prod.fst).Nodup := by
      simpa using h
    simp only [List.map_cons, decodeEntries, unmarshalString]
    rw [StringMap_set_new cur k v hk, ih _ hrest]
    simp [firstErr]

theorem unmarshalStringMap_encode (m : StringMap) (h : (m.map Prod.fst).Nodup) :
    unmarshalStringMap (encodeStringMap m) [] = (m, none) := by
  have := decodeEntries_encode m [] (by simpa using h)
  simpa [unmarshalStringMap, encodeStringMap] using this

/-- Decoding the object of a reported entry into a zero `Log` gives the entry, with the
instant of its timestamp. -/
theorem Log_unmarshal_encodeLog (lib : Lib) (e : WireLog) (t : Time)
    (ht : lib.parseTime e.requestedAt = some t)
    (hh : (e.headers.map Prod.fst).Nodup) (hq : (e.query.map Prod.fst).Nodup) :
    Log.unmarshal lib (encodeLog e) Log.zero
      = (⟨e.method, e.headers, e.path, e.query, e.body, t⟩, none) := by
  have f0 : lib.fieldIndex Log.fieldNames "method" = some 0 := rfl
  have f1 : lib.fieldIndex Log.fieldNames "headers" = some 1 := rfl
  have f2 : lib.fieldIndex Log.fieldNames "path" = some 2 := rfl
  have f3 : lib.fieldIndex Log.fieldNames "query" = some 3 := rfl
  have f4 : lib.fieldIndex Log.fieldNames "body" = some 4 := rfl
  have f5 : lib.fieldIndex Log.fieldNames "requestedAt" = some 5 := rfl
  simp [Log.unmarshal, encodeLog, decodeStruct, decodeMembers, Log.setField, f0, f1, f2, f3,
    f4, f5, unmarshalString, unmarshalTime, ht, Log.zero, firstErr,
    unmarshalStringMap_encode _ hh, unmarshalStringMap_encode _ hq]

/-- Decoding the array of reported entries into an empty slice gives the entries in
order. -/
theorem decodeItems_encodeLog (lib : Lib) (entries : List WireLog)
    (ht : ∀ e ∈ entries, (lib.parseTime e.requestedAt).isSome)
    (hm : ∀ e ∈ entries, (e.headers.map Prod.fst).Nodup ∧ (e.query.map Prod.fst).Nodup) :
    (decodeItems (Log.unmarshal lib) Log.zero (entries.map encodeLog) []).2 = none
      ∧ (decodeItems (Log.unmarshal lib) Log.zero (entries.map encodeLog) []).1.map some
        = entries.map (WireLog.toLog lib) := by
  induction entries with
  | nil => simp [decodeItems]
  | cons e rest ih =>
    obtain ⟨t, het⟩ := Option.isSome_iff_exists.mp (ht e (List.mem_cons_self _ _))
    obtain ⟨hh, hq⟩ := hm e (List.mem_cons_self _ _)
    obtain ⟨ih1, ih2⟩ := ih (fun x hx => ht x (List.mem_cons_of_mem _ hx))
      (fun x hx => hm x (List.mem_cons_of_mem _ hx))
    simp only [List.map_cons, decodeItems, List.head?_nil, Option.getD_none, List.tail_nil,
      Log_unmarshal_encodeLog lib e t het hh hq, ih1, ih2, firstErr]
    simp [WireLog.toLog, het]

theorem Logs_unmarshal_logsBody (lib : Lib) (entries : List WireLog)
    (ht : ∀ e ∈ entries, (lib.parseTime e.requestedAt).isSome)
    (hm : ∀ e ∈ entries, (e.headers.map Prod.fst).Nodup ∧ (e.query.map Prod.fst).Nodup) :
    (Logs.unmarshal lib (logsBody entries) {}).2 = none
      ∧ (Logs.unmarshal lib (logsBody entries) {}).1.Histories.map some
        = entries.map (WireLog.toLog lib) := by
  have h := decodeItems_encodeLog lib entries ht hm
  simpa [Logs.unmarshal, logsBody, decodeStruct, decodeMembers, Logs.setField, fieldIndex_self,
    decodeSlice, firstErr_none_right] using h

/-- C6: when the server answers the GET of `/session/` followed by the name with a success
response carrying `{"histories": [...]}` for `N` reported entries with valid RFC 3339
timestamps, `Logs()` returns no error and `N` logs in the order of the server, each with
the method, path, headers, query and body of its entry and the instant of its timestamp. -/
theorem Logs_round_trip (lib : Lib) (s : Session) (net : Network) (r : HTTPResponse)
    (entries : List WireLog)
    (h : net.respond net.calls
      ⟨s.serverify.client.BaseURL, "GET", "/session/" ++ s.name, none⟩ = .response r)
    (hc : 200 ≤ r.status ∧ r.status ≤ 299) (hb : r.carries (logsBody entries))
    (ht : ∀ e ∈ entries, (lib.parseTime e.requestedAt).isSome)
    (hm : ∀ e ∈ entries, (e.headers.map Prod.fst).Nodup ∧ (e.query.map Prod.fst).Nodup) :
    (s.Logs lib net).2.1 = none
      ∧ ∃ logs, (s.Logs lib net).1 = some logs
          ∧ logs.Histories.length = entries.length
          ∧ logs.Histories.map some = entries.map (WireLog.toLog lib) := by
  obtain ⟨st, js, bd⟩ := r
  obtain ⟨hj, h204, hbody⟩ := hb
  simp only at hj h204 hbody hc
  subst hj hbody
  have hd := doRequest_success lib s.serverify "GET" ("/session/" ++ s.name) none
    ⟨({} : Serverify.Logs), Logs.unmarshal lib⟩ net st (some (logsBody entries)) h
    hc.1 hc.2 h204
  obtain ⟨hu1, hu2⟩ := Logs_unmarshal_logsBody lib entries ht hm
  simp only [unmarshalBody, hu1, Option.map_none'] at hd
  have hlen : (Logs.unmarshal lib (logsBody entries) {}).1.Histories.length
      = entries.length := by
    have := congrArg List.length hu2
    simpa using this
  simp [Session.Logs, Session.Name, hd.1, hd.2, hu2, hlen]

/-- C6 on the test suite: the single entry requested at `2024-07-01T15:00:00Z`. -/
theorem Logs_round_trip_single_entry :
    ((Session.mk "test_session" (New tsURL)).Logs Lib.std
        (testHandler 200 (some (logsBody
          [⟨"POST", [("Content-Type", "application/json")], "/test", [("qk", "qv")],
            "[1, 2]", "2024-07-01T15:00:00Z"⟩])))).2.1 = none
      ∧ ∃ logs, ((Session.mk "test_session" (New tsURL)).Logs Lib.std
          (testHandler 200 (some (logsBody
            [⟨"POST", [("Content-Type", "application/json")], "/test", [("qk", "qv")],
              "[1, 2]", "2024-07-01T15:00:00Z"⟩])))).1 = some logs
          ∧ logs.Histories.length = 1
          ∧ logs.Histories.map some
            = [some ⟨"POST", [("Content-Type", "application/json")], "/test", [("qk", "qv")],
                "[1, 2]", ⟨1719846000000000000⟩⟩] :=
  Logs_round_trip Lib.std (Session.mk "test_session" (New tsURL))
    (testHandler 200 (some (logsBody
      [⟨"POST", [("Content-Type", "application/json")], "/test", [("qk", "qv")],
        "[1, 2]", "2024-07-01T15:00:00Z"⟩])))
    ⟨200, true, some (logsBody
      [⟨"POST", [("Content-Type", "application/json")], "/test", [("qk", "qv")],
        "[1, 2]", "2024-07-01T15:00:00Z"⟩])⟩ _ rfl (by decide) ⟨rfl, by decide, rfl⟩
    (by decide) (by decide)

/-! ## Mock base URL -/

end Serverify
